import Mathlib

/-!
Shallow embedding of the in-memory Todo store of src/routers/todos.py and
verification of its specification.  Python dictionaries holding Todo records
become a structure, the module-level list todos_db becomes the field of a
Store structure, timestamps become natural numbers supplied by a clock
argument (datetime.now is modelled as one reading per request handler), and
uuid4 generation is modelled by a fresh-id counter.  Fallible handlers return
Except values over an error type mirroring the HTTP error taxonomy.
-/

namespace TodoApp

/-- Embeds the TodoPriority str-Enum of the source (members LOW, MEDIUM, HIGH
with values low, medium, high). -/
inductive TodoPriority
  | low
  | medium
  | high
  deriving DecidableEq

/-- Embeds the TodoStatus str-Enum of the source (members PENDING,
IN_PROGRESS, COMPLETED with values pending, in_progress, completed). -/
inductive TodoStatus
  | pending
  | in_progress
  | completed
  deriving DecidableEq

/-- The .value attribute of a TodoPriority member. -/
def TodoPriority.value : TodoPriority → String
  | .low => "low"
  | .medium => "medium"
  | .high => "high"

/-- The .value attribute of a TodoStatus member. -/
def TodoStatus.value : TodoStatus → String
  | .pending => "pending"
  | .in_progress => "in_progress"
  | .completed => "completed"

/-- Python str() applied to a TodoPriority member.  TodoPriority subclasses
(str, Enum), not enum.StrEnum, so the enum machinery installs Enum.str on the
class and str(member) yields ClassName.MEMBER, not the member value.  This is
what `str(todo["priority"])` computes inside get_todo_stats. -/
def TodoPriority.pyStr : TodoPriority → String
  | .low => "TodoPriority.LOW"
  | .medium => "TodoPriority.MEDIUM"
  | .high => "TodoPriority.HIGH"

/-- Python str() applied to a TodoStatus member, analogous to
TodoPriority.pyStr: it yields ClassName.MEMBER, not the member value. -/
def TodoStatus.pyStr : TodoStatus → String
  | .pending => "TodoStatus.PENDING"
  | .in_progress => "TodoStatus.IN_PROGRESS"
  | .completed => "TodoStatus.COMPLETED"

/-- One record of the todos_db list.  The Python dicts always carry exactly
these keys; id is modelled as a Nat drawn from a fresh counter (standing in
for uuid4 strings) and the ISO timestamp strings as Nat instants. -/
structure Todo where
  id : Nat
  title : String
  description : Option String
  priority : TodoPriority
  status : TodoStatus
  due_date : Option String
  created_at : Nat
  updated_at : Nat
  deriving DecidableEq

/-- The module state: the todos_db list plus the fresh-id source (generate_id
returns nextId and the counter advances; this models uuid4 always returning a
value distinct from every previously generated one). -/
structure Store where
  todos : List Todo
  nextId : Nat
  deriving DecidableEq

/-- The three error outcomes of the handlers: HTTP 404 from
ensure_todo_exists and delete_todo, HTTP 422 from pydantic request-model
validation, HTTP 400 from the blank-query check of search_todos. -/
inductive ApiError
  | notFound
  | validationError
  | invalidArgument
  deriving DecidableEq

/-- State of one field of a TodoUpdate payload: absent from the request body
(excluded by model_dump with exclude_unset), present as an explicit JSON
null, or present with a value. -/
inductive FieldVal (α : Type)
  | unset
  | null
  | val (a : α)
  deriving DecidableEq

/-- The TodoUpdate pydantic model: every field optional, each either unset,
explicitly null, or carrying a value. -/
structure TodoUpdate where
  title : FieldVal String
  description : FieldVal String
  priority : FieldVal TodoPriority
  status : FieldVal TodoStatus
  due_date : FieldVal String
  deriving DecidableEq

/-- A TodoUpdate with no field set at all (an empty request body). -/
def emptyUpdate : TodoUpdate :=
  { title := .unset, description := .unset, priority := .unset,
    status := .unset, due_date := .unset }

/-- The raw JSON body of a create request, before pydantic parses it with
TodoCreate.  statusAttempt models a status key the caller may include in the
body: TodoCreate declares no such field, so pydantic ignores it. -/
structure RawCreate where
  title : String
  description : Option String
  priority : Option TodoPriority
  due_date : Option String
  statusAttempt : Option TodoStatus
  deriving DecidableEq

/-- The TodoCreate field constraint on title: min_length 1, max_length 100
(Python len counts code points, as does String.length). -/
def validTitle (s : String) : Bool :=
  decide (1 ≤ s.length ∧ s.length ≤ 100)

/-- The TodoCreate field constraint on description: max_length 500, null
allowed. -/
def validDescription : Option String → Bool
  | none => true
  | some s => decide (s.length ≤ 500)

/-- Pydantic validation of a create body against TodoCreate. -/
def validCreate (c : RawCreate) : Bool :=
  validTitle c.title && validDescription c.description

/-- Pydantic validation of an update body against TodoUpdate: a provided
title must satisfy min_length 1 and max_length 100, a provided description
max_length 500; explicit nulls are valid. -/
def validUpdate (u : TodoUpdate) : Bool :=
  (match u.title with
   | .val v => validTitle v
   | _ => true) &&
  (match u.description with
   | .val v => decide (v.length ≤ 500)
   | _ => true)

/-- The find_todo_by_id helper: linear scan returning the first record whose
id matches, None otherwise. -/
def find_todo_by_id (todo_id : Nat) (todos : List Todo) : Option Todo :=
  todos.find? (fun td => td.id == todo_id)

/-- The safe_todo_update helper: for each field present in update_data,
overwrite the stored field only when the supplied value is not None, then
unconditionally refresh updated_at with the current timestamp. -/
def safe_todo_update (td : Todo) (u : TodoUpdate) (t : Nat) : Todo :=
  { td with
    title := match u.title with
      | .val v => v
      | _ => td.title,
    description := match u.description with
      | .val v => some v
      | _ => td.description,
    priority := match u.priority with
      | .val v => v
      | _ => td.priority,
    status := match u.status with
      | .val v => v
      | _ => td.status,
    due_date := match u.due_date with
      | .val v => some v
      | _ => td.due_date,
    updated_at := t }

/-- In-place mutation of the record found by find_todo_by_id: the first list
element whose id matches is replaced by its image under f, the rest of the
list is untouched. -/
def updateFirst (todo_id : Nat) (f : Todo → Todo) : List Todo → List Todo
  | [] => []
  | td :: rest =>
      if td.id == todo_id then f td :: rest
      else td :: updateFirst todo_id f rest

/-- The scan-and-pop loop of delete_todo: remove the first record whose id
matches and return it with the remaining list, or None when no id matches
(in which case the list is untouched). -/
def deleteFromList (todo_id : Nat) : List Todo → Option (Todo × List Todo)
  | [] => none
  | td :: rest =>
      if td.id == todo_id then some (td, rest)
      else
        match deleteFromList todo_id rest with
        | none => none
        | some (d, rest') => some (d, td :: rest')

/-- Python list-slice todos[a : b] for non-negative bounds: the elements with
indices in the half-open interval from a to b. -/
def pySlice (l : List α) (a b : Nat) : List α :=
  (l.take b).drop a

/-- Python str.lower on the character list of a string (character-wise case
mapping; characters outside the cased range are unchanged). -/
def pyLower (l : List Char) : List Char :=
  l.map Char.toLower

/-- Python str.strip with no argument: remove leading and trailing
whitespace. -/
def pyStrip (l : List Char) : List Char :=
  ((l.dropWhile Char.isWhitespace).reverse.dropWhile Char.isWhitespace).reverse

/-- Whether needle occurs as a contiguous run inside hay, the Python
substring test `needle in hay`. -/
def listPrefixOf : List Char → List Char → Bool
  | [], _ => true
  | _ :: _, [] => false
  | a :: as, b :: bs => a == b && listPrefixOf as bs

/-- Scans hay position by position for an occurrence of needle. -/
def containsSub (needle : List Char) : List Char → Bool
  | [] => needle.isEmpty
  | c :: rest => listPrefixOf needle (c :: rest) || containsSub needle rest

/-- The match test of the search loop: the search term occurs in the lowered
title, or the description is present and the term occurs in the lowered
description. -/
def todoMatches (term : List Char) (td : Todo) : Bool :=
  containsSub term (pyLower td.title.data) ||
  (match td.description with
   | none => false
   | some d => containsSub term (pyLower d.data))

/-- GET handler get_all_todos: copy the collection, filter by status when a
status_filter is given, filter by priority when a priority is given, then
slice out [skip, skip + limit). -/
def get_all_todos (skip limit : Nat) (status_filter : Option TodoStatus)
    (priority : Option TodoPriority) (s : Store) : List Todo :=
  let filtered := s.todos
  let filtered := match status_filter with
    | none => filtered
    | some st => filtered.filter (fun td => td.status == st)
  let filtered := match priority with
    | none => filtered
    | some p => filtered.filter (fun td => td.priority == p)
  pySlice filtered skip (skip + limit)

/-- GET handler get_todo_by_id: ensure_todo_exists then return the record. -/
def get_todo_by_id (todo_id : Nat) (s : Store) : Except ApiError Todo :=
  match find_todo_by_id todo_id s.todos with
  | none => .error .notFound
  | some td => .ok td

/-- POST handler create_todo, preceded by pydantic parsing of the body with
TodoCreate: validation failure is a 422 before the handler runs; otherwise a
record is built with a generated id, the supplied title, description,
priority (default medium), due_date, status forced to PENDING, both
timestamps set to now, and appended to todos_db.  The statusAttempt key of
the body is not a TodoCreate field and never reaches the handler. -/
def create_todo (inp : RawCreate) (t : Nat) (s : Store) :
    Except ApiError (Todo × Store) :=
  if validCreate inp then
    let new_todo : Todo :=
      { id := s.nextId,
        title := inp.title,
        description := inp.description,
        priority := inp.priority.getD .medium,
        status := .pending,
        due_date := inp.due_date,
        created_at := t,
        updated_at := t }
    .ok (new_todo, { todos := s.todos ++ [new_todo], nextId := s.nextId + 1 })
  else .error .validationError

/-- PUT handler update_todo: ensure_todo_exists, then safe_todo_update on the
found record (mutated in place inside todos_db), returning the updated
record.  The body is assumed pydantic-valid; validation is applied by the
adapter before the handler (see applyOp). -/
def update_todo (todo_id : Nat) (u : TodoUpdate) (t : Nat) (s : Store) :
    Except ApiError (Todo × Store) :=
  match find_todo_by_id todo_id s.todos with
  | none => .error .notFound
  | some td =>
      .ok (safe_todo_update td u t,
           { s with todos := updateFirst todo_id (fun x => safe_todo_update x u t) s.todos })

/-- PATCH handler partial_update_todo: its body is line for line the body of
update_todo. -/
def partial_update_todo (todo_id : Nat) (u : TodoUpdate) (t : Nat) (s : Store) :
    Except ApiError (Todo × Store) :=
  match find_todo_by_id todo_id s.todos with
  | none => .error .notFound
  | some td =>
      .ok (safe_todo_update td u t,
           { s with todos := updateFirst todo_id (fun x => safe_todo_update x u t) s.todos })

/-- DELETE handler delete_todo: scan for the first record with the given id,
pop it, and answer with the popped record and the length of what remains;
404 when no id matches. -/
def delete_todo (todo_id : Nat) (s : Store) :
    Except ApiError (Todo × Nat × Store) :=
  match deleteFromList todo_id s.todos with
  | none => .error .notFound
  | some (d, rest) => .ok (d, rest.length, { s with todos := rest })

/-- The single-field update dict passed by the complete and start handlers. -/
def statusOnlyUpdate (st : TodoStatus) : TodoUpdate :=
  { title := .unset, description := .unset, priority := .unset,
    status := .val st, due_date := .unset }

/-- PATCH handler mark_todo_complete: ensure_todo_exists then
safe_todo_update with a status of COMPLETED. -/
def mark_todo_complete (todo_id : Nat) (t : Nat) (s : Store) :
    Except ApiError (Todo × Store) :=
  match find_todo_by_id todo_id s.todos with
  | none => .error .notFound
  | some td =>
      let f := fun x => safe_todo_update x (statusOnlyUpdate .completed) t
      .ok (safe_todo_update td (statusOnlyUpdate .completed) t,
           { s with todos := updateFirst todo_id f s.todos })

/-- PATCH handler start_todo: ensure_todo_exists then safe_todo_update with a
status of IN_PROGRESS. -/
def start_todo (todo_id : Nat) (t : Nat) (s : Store) :
    Except ApiError (Todo × Store) :=
  match find_todo_by_id todo_id s.todos with
  | none => .error .notFound
  | some td =>
      let f := fun x => safe_todo_update x (statusOnlyUpdate .in_progress) t
      .ok (safe_todo_update td (statusOnlyUpdate .in_progress) t,
           { s with todos := updateFirst todo_id f s.todos })

/-- GET handler search_todos: reject a query that is empty or whitespace-only
with a 400; otherwise lower and strip the query, collect the matching
records in collection order, and answer with the slice [skip, skip + limit)
of the matches, the total match count, and the processed search term. -/
def search_todos (q : String) (skip limit : Nat) (s : Store) :
    Except ApiError (List Todo × Nat × String) :=
  if q.data.isEmpty || (pyStrip q.data).isEmpty then .error .invalidArgument
  else
    let search_term := pyStrip (pyLower q.data)
    let results := s.todos.foldl
      (fun acc td => if todoMatches search_term td then acc ++ [td] else acc) []
    .ok (pySlice results skip (skip + limit), results.length, String.mk search_term)

/-- A Python dict from strings to ints, as its insertion-ordered list of
key-value pairs. -/
abbrev Dict := List (String × Nat)

/-- Python d.get(k, dflt). -/
def dictGet (d : Dict) (k : String) (dflt : Nat) : Nat :=
  match d.find? (fun p => p.1 == k) with
  | some p => p.2
  | none => dflt

/-- Python d[k] = v: replace the value of an existing key in place, or append
a new key at the end. -/
def dictSet (d : Dict) (k : String) (v : Nat) : Dict :=
  if d.any (fun p => p.1 == k) then
    d.map (fun p => if p.1 == k then (k, v) else p)
  else d ++ [(k, v)]

/-- Rounding to two decimal places, round(x, 2).  Ties are modelled half-up;
Python rounds float ties half-even, a difference only visible at exact
half-cent values, which no claim touches. -/
def round2 (x : ℚ) : ℚ :=
  (round (x * 100) : ℤ) / 100

/-- The raw dict returned by get_todo_stats, before FastAPI validates it
against the StatsResponse model.  An Option field of none stands for a key
absent from the returned dict. -/
structure RawStats where
  total_todos : Nat
  by_status : Dict
  by_priority : Dict
  completion_rate : ℚ
  highest_priority_count : Option Nat
  message : Option String

/-- Whether a raw stats dict validates against the StatsResponse model:
total_todos, by_status, by_priority, completion_rate and
highest_priority_count are required fields, message has a default of None. -/
def statsResponseComplete (r : RawStats) : Bool :=
  r.highest_priority_count.isSome

/-- Accumulation step of the stats loop for one record: the dict keys are
str(todo["status"]) and str(todo["priority"]), i.e. the pyStr forms. -/
def statsStep (acc : Dict × Dict) (td : Todo) : Dict × Dict :=
  let status_key := td.status.pyStr
  let priority_key := td.priority.pyStr
  (dictSet acc.1 status_key (dictGet acc.1 status_key 0 + 1),
   dictSet acc.2 priority_key (dictGet acc.2 priority_key 0 + 1))

/-- GET handler get_todo_stats.  On an empty collection the returned dict has
no highest_priority_count key.  Otherwise the two breakdown dicts are
zero-initialized over the enum member values, then for each record the keys
str(status) and str(priority) are incremented, completed_count is read back
at the key completed, the rate is completed_count / total * 100 rounded to 2
places, and highest_priority_count is read at the key high. -/
def get_todo_stats (s : Store) : RawStats :=
  let total := s.todos.length
  if total == 0 then
    { total_todos := 0,
      by_status := [],
      by_priority := [],
      completion_rate := 0,
      highest_priority_count := none,
      message := some "暂无待办事项" }
  else
    let by_status0 : Dict :=
      [(TodoStatus.pending.value, 0), (TodoStatus.in_progress.value, 0),
       (TodoStatus.completed.value, 0)]
    let by_priority0 : Dict :=
      [(TodoPriority.low.value, 0), (TodoPriority.medium.value, 0),
       (TodoPriority.high.value, 0)]
    let acc := s.todos.foldl statsStep (by_status0, by_priority0)
    let completed_count := dictGet acc.1 TodoStatus.completed.value 0
    let completion_rate := round2 ((completed_count : ℚ) / (total : ℚ) * 100)
    { total_todos := total,
      by_status := acc.1,
      by_priority := acc.2,
      completion_rate := completion_rate,
      highest_priority_count := some (dictGet acc.2 TodoPriority.high.value 0),
      message := none }

/-- First record of initialize_sample_data (uuid4 id modelled as counter
value 0, the startup timestamp as instant 0). -/
def seededTodo0 : Todo :=
  { id := 0,
    title := "学习FastAPI",
    description := some "完成第三天的学习任务",
    priority := .high,
    status := .completed,
    due_date := some "2024-01-01",
    created_at := 0,
    updated_at := 0 }

/-- Second record of initialize_sample_data. -/
def seededTodo1 : Todo :=
  { id := 1,
    title := "编写Todo API",
    description := some "实现CRUD操作",
    priority := .medium,
    status := .in_progress,
    due_date := some "2024-01-02",
    created_at := 0,
    updated_at := 0 }

/-- Third record of initialize_sample_data. -/
def seededTodo2 : Todo :=
  { id := 2,
    title := "学习异步编程",
    description := some "理解async/await语法",
    priority := .low,
    status := .pending,
    due_date := some "2024-01-03",
    created_at := 0,
    updated_at := 0 }

/-- The store right after startup: the three sample records, the id counter
past them. -/
def seededStore : Store :=
  { todos := [seededTodo0, seededTodo1, seededTodo2], nextId := 3 }

/-- The seeded store after a delete of id 1. -/
def seededAfterDelete1 : Store :=
  { todos := [seededTodo0, seededTodo2], nextId := 3 }

/-- One request against the service, carrying the parsed inputs of the
corresponding handler. -/
inductive Op
  | createOp (inp : RawCreate)
  | getOp (todo_id : Nat)
  | listOp (skip limit : Nat) (status_filter : Option TodoStatus) (priority : Option TodoPriority)
  | updateOp (todo_id : Nat) (u : TodoUpdate)
  | patchOp (todo_id : Nat) (u : TodoUpdate)
  | deleteOp (todo_id : Nat)
  | completeOp (todo_id : Nat)
  | startOp (todo_id : Nat)
  | searchOp (q : String) (skip limit : Nat)
  | statsOp

/-- The successful payload of one request. -/
inductive OpResult
  | todoRes (td : Todo)
  | deleteRes (td : Todo) (remaining_count : Nat)
  | listRes (l : List Todo)
  | searchRes (results : List Todo) (total_found : Nat) (search_term : String)
  | statsRes (r : RawStats)

/-- One request dispatched at instant t against the store: the outcome
together with the store afterwards.  Pydantic body validation (a 422 raised
before any handler body runs) is applied here for update and patch, matching
the adapter. -/
def applyOp (op : Op) (t : Nat) (s : Store) : Except ApiError OpResult × Store :=
  match op with
  | .createOp inp =>
      match create_todo inp t s with
      | .error e => (.error e, s)
      | .ok (td, s') => (.ok (.todoRes td), s')
  | .getOp todo_id =>
      match get_todo_by_id todo_id s with
      | .error e => (.error e, s)
      | .ok td => (.ok (.todoRes td), s)
  | .listOp skip limit status_filter priority =>
      (.ok (.listRes (get_all_todos skip limit status_filter priority s)), s)
  | .updateOp todo_id u =>
      if validUpdate u then
        match update_todo todo_id u t s with
        | .error e => (.error e, s)
        | .ok (td, s') => (.ok (.todoRes td), s')
      else (.error .validationError, s)
  | .patchOp todo_id u =>
      if validUpdate u then
        match partial_update_todo todo_id u t s with
        | .error e => (.error e, s)
        | .ok (td, s') => (.ok (.todoRes td), s')
      else (.error .validationError, s)
  | .deleteOp todo_id =>
      match delete_todo todo_id s with
      | .error e => (.error e, s)
      | .ok (d, n, s') => (.ok (.deleteRes d n), s')
  | .completeOp todo_id =>
      match mark_todo_complete todo_id t s with
      | .error e => (.error e, s)
      | .ok (td, s') => (.ok (.todoRes td), s')
  | .startOp todo_id =>
      match start_todo todo_id t s with
      | .error e => (.error e, s)
      | .ok (td, s') => (.ok (.todoRes td), s')
  | .searchOp q skip limit =>
      match search_todos q skip limit s with
      | .error e => (.error e, s)
      | .ok (res, n, term) => (.ok (.searchRes res n term), s)
  | .statsOp => (.ok (.statsRes (get_todo_stats s)), s)

/-- A timed request trace has a monotone clock: each request instant is at
least the bound and instants never decrease along the trace. -/
def chron : Nat → List (Op × Nat) → Bool
  | _, [] => true
  | t0, (_, t) :: rest => decide (t0 ≤ t) && chron t rest

/-- Run a timed request trace against a store, threading the store through
and discarding outcomes. -/
def runOps : List (Op × Nat) → Store → Store
  | [], s => s
  | (op, t) :: rest, s => runOps rest (applyOp op t s).2

/-- Executable check of the timestamp invariant: every live record has
created_at at most updated_at. -/
def checkInv (s : Store) : Bool :=
  s.todos.all (fun td => decide (td.created_at ≤ td.updated_at))

/-- Timestamp invariant strengthened with a clock bound: every record has
created_at at most updated_at, and updated_at at most the bound.  The bound
is what survives a later mutation that rewrites updated_at with a fresh,
larger instant. -/
def InvBound (s : Store) (b : Nat) : Prop :=
  ∀ td ∈ s.todos, td.created_at ≤ td.updated_at ∧ td.updated_at ≤ b

/-- A store of four records exactly one of which is completed (and one of
which has high priority), the configuration the specification uses to pin
down completion_rate. -/
def fourStore : Store :=
  { todos :=
      [{ id := 0, title := "todo a", description := none, priority := .high,
         status := .completed, due_date := none, created_at := 0, updated_at := 0 },
       { id := 1, title := "todo b", description := none, priority := .medium,
         status := .pending, due_date := none, created_at := 0, updated_at := 0 },
       { id := 2, title := "todo c", description := none, priority := .low,
         status := .pending, due_date := none, created_at := 0, updated_at := 0 },
       { id := 3, title := "todo d", description := none, priority := .medium,
         status := .in_progress, due_date := none, created_at := 0, updated_at := 0 }],
    nextId := 4 }

/-- A well-formed create body that also tries to smuggle in a status. -/
def sampleCreate : RawCreate :=
  { title := "new task", description := some "details", priority := none,
    due_date := none, statusAttempt := some .completed }

/-- The store with an empty collection. -/
def emptyStore : Store :=
  { todos := [], nextId := 0 }

/-- The id lookup misses exactly when no live record carries the id. -/
theorem find_todo_by_id_eq_none {todo_id : Nat} {l : List Todo} :
    find_todo_by_id todo_id l = none ↔ ∀ x ∈ l, x.id ≠ todo_id := by
  simp [find_todo_by_id, List.find?_eq_none]

/-- A successful id lookup splits the collection around the first record
carrying the id, and updateFirst rewrites exactly that record. -/
theorem find_updateFirst_decomp (todo_id : Nat) (f : Todo → Todo)
    {l : List Todo} {td : Todo} (h : find_todo_by_id todo_id l = some td) :
    ∃ l₁ l₂, l = l₁ ++ td :: l₂ ∧ (∀ x ∈ l₁, x.id ≠ todo_id) ∧ td.id = todo_id ∧
      updateFirst todo_id f l = l₁ ++ f td :: l₂ := by
  induction l with
  | nil => simp [find_todo_by_id] at h
  | cons hd tl ih =>
      by_cases hid : hd.id = todo_id
      · have hfind : find_todo_by_id todo_id (hd :: tl) = some hd := by
          simp [find_todo_by_id, List.find?_cons_of_pos, hid]
        rw [hfind] at h
        obtain rfl : hd = td := by injection h
        exact ⟨[], tl, rfl, by simp, hid, by simp [updateFirst, hid]⟩
      · have hfind : find_todo_by_id todo_id (hd :: tl) = find_todo_by_id todo_id tl := by
          simp [find_todo_by_id]
          exact List.find?_cons_of_neg _ (by simp [hid])
        rw [hfind] at h
        obtain ⟨l₁, l₂, hl, hl₁, hid', hupd⟩ := ih h
        refine ⟨hd :: l₁, l₂, by simp [hl], ?_, hid', ?_⟩
        · intro x hx
          rcases List.mem_cons.mp hx with rfl | hx
          · exact hid
          · exact hl₁ x hx
        · simp [updateFirst, hid, hupd]

/-- The delete scan misses exactly when no live record carries the id. -/
theorem deleteFromList_eq_none {todo_id : Nat} {l : List Todo} :
    deleteFromList todo_id l = none ↔ ∀ x ∈ l, x.id ≠ todo_id := by
  induction l with
  | nil => simp [deleteFromList]
  | cons hd tl ih =>
      by_cases hid : hd.id = todo_id
      · simp [deleteFromList, hid]
      · rw [deleteFromList]
        simp only [beq_iff_eq, hid, if_false]
        constructor
        · intro h x hx
          rcases List.mem_cons.mp hx with rfl | hx
          · exact hid
          · rcases hdel : deleteFromList todo_id tl with _ | p
            · exact ih.mp hdel x hx
            · rw [hdel] at h; simp at h
        · intro h
          have : deleteFromList todo_id tl = none :=
            ih.mpr (fun x hx => h x (List.mem_cons_of_mem hd hx))
          simp [this]

/-- A successful delete scan splits the collection around the first record
carrying the id; what remains is the concatenation of the two sides. -/
theorem deleteFromList_decomp {todo_id : Nat} {l rest : List Todo} {d : Todo}
    (h : deleteFromList todo_id l = some (d, rest)) :
    ∃ l₁ l₂, l = l₁ ++ d :: l₂ ∧ (∀ x ∈ l₁, x.id ≠ todo_id) ∧ d.id = todo_id ∧
      rest = l₁ ++ l₂ := by
  induction l generalizing rest with
  | nil => simp [deleteFromList] at h
  | cons hd tl ih =>
      by_cases hid : hd.id = todo_id
      · rw [deleteFromList] at h
        simp only [beq_iff_eq, hid, if_true] at h
        obtain ⟨rfl, rfl⟩ : hd = d ∧ tl = rest := by
          constructor <;> injection h with h1 <;> [skip; skip] <;> first
            | exact congrArg Prod.fst h1 | exact congrArg Prod.snd h1
        exact ⟨[], tl, rfl, by simp, hid, rfl⟩
      · rw [deleteFromList] at h
        simp only [beq_iff_eq, hid, if_false] at h
        rcases hdel : deleteFromList todo_id tl with _ | ⟨d', rest'⟩
        · rw [hdel] at h; simp at h
        · rw [hdel] at h
          simp only [Option.some.injEq] at h
          obtain ⟨rfl, rfl⟩ : d' = d ∧ hd :: rest' = rest := by
            constructor
            · exact congrArg Prod.fst h
            · exact congrArg Prod.snd h
          obtain ⟨l₁, l₂, hl, hl₁, hidd, hrest⟩ := ih hdel
          refine ⟨hd :: l₁, l₂, by simp [hl], ?_, hidd, by simp [hrest]⟩
          intro x hx
          rcases List.mem_cons.mp hx with rfl | hx
          · exact hid
          · exact hl₁ x hx

/-- In a collection with pairwise distinct ids, two members sharing an id are
the same record. -/
theorem uniq_same_id {l : List Todo} (hu : l.Pairwise (fun a b => a.id ≠ b.id))
    {x y : Todo} (hx : x ∈ l) (hy : y ∈ l) (hxy : x.id = y.id) : x = y := by
  induction l with
  | nil => cases hx
  | cons hd tl ih =>
      obtain ⟨hhd, htl⟩ := List.pairwise_cons.mp hu
      rcases List.mem_cons.mp hx with hx1 | hx2
      · rcases List.mem_cons.mp hy with hy1 | hy2
        · rw [hx1, hy1]
        · subst hx1
          exact absurd hxy (hhd y hy2)
      · rcases List.mem_cons.mp hy with hy1 | hy2
        · subst hy1
          exact absurd hxy.symm (hhd x hx2)
        · exact ih htl hx2 hy2

/-- Appending matches one by one is filtering. -/
theorem foldl_append_eq_filter (p : Todo → Bool) (l : List Todo) :
    ∀ acc, l.foldl (fun a x => if p x then a ++ [x] else a) acc = acc ++ l.filter p := by
  induction l with
  | nil => intro acc; simp
  | cons hd tl ih =>
      intro acc
      by_cases h : p hd <;> simp [List.foldl_cons, h, ih, List.filter_cons]

/-- The Python slice [a, a + b) is drop a followed by take b. -/
theorem pySlice_eq (l : List Todo) (a b : Nat) :
    pySlice l a (a + b) = (l.drop a).take b := by
  simp [pySlice, List.drop_take]

/-- safe_todo_update never touches created_at. -/
theorem safe_todo_update_created (td : Todo) (u : TodoUpdate) (t : Nat) :
    (safe_todo_update td u t).created_at = td.created_at := rfl

/-- safe_todo_update always refreshes updated_at to the current instant. -/
theorem safe_todo_update_updated (td : Todo) (u : TodoUpdate) (t : Nat) :
    (safe_todo_update td u t).updated_at = t := rfl

/-- A member of the rewritten collection is an untouched original member or
the image of an original member. -/
theorem mem_updateFirst {x : Todo} (todo_id : Nat) (f : Todo → Todo) :
    ∀ l, x ∈ updateFirst todo_id f l → x ∈ l ∨ ∃ y ∈ l, x = f y := by
  intro l
  induction l with
  | nil => simp [updateFirst]
  | cons hd tl ih =>
      rw [updateFirst]
      by_cases hid : hd.id = todo_id
      · simp only [beq_iff_eq, hid, if_true]
        intro hm
        rcases List.mem_cons.mp hm with h1 | h2
        · exact Or.inr ⟨hd, List.mem_cons_self hd tl, h1⟩
        · exact Or.inl (List.mem_cons_of_mem hd h2)
      · simp only [beq_iff_eq, hid, if_false]
        intro hm
        rcases List.mem_cons.mp hm with h1 | h2
        · exact Or.inl (h1 ▸ List.mem_cons_self hd tl)
        · rcases ih h2 with h3 | ⟨y, hy, hxy⟩
          · exact Or.inl (List.mem_cons_of_mem hd h3)
          · exact Or.inr ⟨y, List.mem_cons_of_mem hd hy, hxy⟩

/-- Weakening the clock bound of the invariant. -/
theorem invBound_mono {s : Store} {b t : Nat} (h : InvBound s b) (hbt : b ≤ t) :
    InvBound s t :=
  fun td hm => ⟨(h td hm).1, le_trans (h td hm).2 hbt⟩

/-- The bounded invariant entails the executable timestamp check. -/
theorem invBound_checkInv {s : Store} {b : Nat} (h : InvBound s b) :
    checkInv s = true := by
  simp only [checkInv, List.all_eq_true, decide_eq_true_eq]
  exact fun td hm => (h td hm).1

/-- Rewriting one record with safe_todo_update at a monotone instant keeps
the bounded invariant. -/
theorem invBound_update_branch {s : Store} {b t : Nat} (todo_id : Nat) (u : TodoUpdate)
    (h : InvBound s b) (hbt : b ≤ t) :
    InvBound { s with todos := updateFirst todo_id (fun x => safe_todo_update x u t) s.todos } t := by
  intro td hm
  rcases mem_updateFirst todo_id _ s.todos hm with h1 | ⟨y, hy, rfl⟩
  · exact invBound_mono h hbt td h1
  · constructor
    · rw [safe_todo_update_created, safe_todo_update_updated]
      exact le_trans (h y hy).1 (le_trans (h y hy).2 hbt)
    · rw [safe_todo_update_updated]

/-- Every request dispatched at an instant past the clock bound keeps the
bounded invariant, now bounded by the dispatch instant. -/
theorem invBound_applyOp (op : Op) (t b : Nat) (s : Store)
    (h : InvBound s b) (hbt : b ≤ t) : InvBound (applyOp op t s).2 t := by
  have hmono : InvBound s t := invBound_mono h hbt
  cases op with
  | createOp inp =>
      by_cases hv : validCreate inp
      · simp only [applyOp, create_todo, hv, if_true]
        intro td hm
        rcases List.mem_append.mp hm with h1 | h2
        · exact hmono td h1
        · have : td = { id := s.nextId, title := inp.title, description := inp.description,
                        priority := inp.priority.getD .medium, status := .pending,
                        due_date := inp.due_date, created_at := t, updated_at := t } := by
            simpa using h2
          subst this
          exact ⟨le_rfl, le_rfl⟩
      · simp only [applyOp, create_todo, hv, if_false]
        exact hmono
  | getOp todo_id =>
      rcases hg : get_todo_by_id todo_id s with e | td <;> simp only [applyOp, hg] <;> exact hmono
  | listOp skip limit status_filter priority => exact hmono
  | updateOp todo_id u =>
      by_cases hv : validUpdate u
      · rcases hfind : find_todo_by_id todo_id s.todos with _ | td0
        · simp only [applyOp, hv, if_true, update_todo, hfind]
          exact hmono
        · simp only [applyOp, hv, if_true, update_todo, hfind]
          exact invBound_update_branch todo_id u h hbt
      · simp only [applyOp, hv, if_false]
        exact hmono
  | patchOp todo_id u =>
      by_cases hv : validUpdate u
      · rcases hfind : find_todo_by_id todo_id s.todos with _ | td0
        · simp only [applyOp, hv, if_true, partial_update_todo, hfind]
          exact hmono
        · simp only [applyOp, hv, if_true, partial_update_todo, hfind]
          exact invBound_update_branch todo_id u h hbt
      · simp only [applyOp, hv, if_false]
        exact hmono
  | deleteOp todo_id =>
      rcases hdel : deleteFromList todo_id s.todos with _ | ⟨d, rest⟩
      · simp only [applyOp, delete_todo, hdel]
        exact hmono
      · simp only [applyOp, delete_todo, hdel]
        intro td hm
        obtain ⟨l₁, l₂, hl, _, _, hrest⟩ := deleteFromList_decomp hdel
        have hmem : td ∈ s.todos := by
          rw [hl]
          have : td ∈ l₁ ++ l₂ := hrest ▸ hm
          rcases List.mem_append.mp this with h1 | h2
          · exact List.mem_append.mpr (Or.inl h1)
          · exact List.mem_append.mpr (Or.inr (List.mem_cons_of_mem d h2))
        exact hmono td hmem
  | completeOp todo_id =>
      rcases hfind : find_todo_by_id todo_id s.todos with _ | td0
      · simp only [applyOp, mark_todo_complete, hfind]
        exact hmono
      · simp only [applyOp, mark_todo_complete, hfind]
        exact invBound_update_branch todo_id (statusOnlyUpdate .completed) h hbt
  | startOp todo_id =>
      rcases hfind : find_todo_by_id todo_id s.todos with _ | td0
      · simp only [applyOp, start_todo, hfind]
        exact hmono
      · simp only [applyOp, start_todo, hfind]
        exact invBound_update_branch todo_id (statusOnlyUpdate .in_progress) h hbt
  | searchOp q skip limit =>
      rcases hs : search_todos q skip limit s with e | ⟨res, n, term⟩ <;>
        simp only [applyOp, hs] <;> exact hmono
  | statsOp => exact hmono

/-- Running a chronologically timed request trace from a store satisfying the
bounded invariant lands in a store satisfying the timestamp check. -/
theorem runOps_checkInv : ∀ (ops : List (Op × Nat)) (s : Store) (b : Nat),
    chron b ops = true → InvBound s b → checkInv (runOps ops s) = true
  | [], _, _, _, h => invBound_checkInv h
  | (op, t) :: rest, s, b, hc, h => by
      rw [chron, Bool.and_eq_true] at hc
      obtain ⟨h1, h2⟩ := hc
      rw [runOps]
      exact runOps_checkInv rest _ t h2 (invBound_applyOp op t b s h (of_decide_eq_true h1))

/-- C1: on the empty collection get_todo_stats does return total_todos 0,
empty breakdowns, completion_rate 0 and an informational message, but the
returned dict omits the required StatsResponse field
highest_priority_count, so the result is not a complete StatsResponse and
response-model validation of the stats endpoint fails on the empty
collection instead of succeeding. -/
theorem stats_empty_incomplete :
    get_todo_stats emptyStore =
      { total_todos := 0, by_status := [], by_priority := [],
        completion_rate := 0, highest_priority_count := none,
        message := some "暂无待办事项" } ∧
    statsResponseComplete (get_todo_stats emptyStore) = false :=
  ⟨rfl, rfl⟩

/-- C2: for every valid create body, at every instant and in every store,
create_todo returns a record with the freshly generated id, status pending,
created_at and updated_at both equal to the creation instant, appended at the
end of the collection; and the result does not depend on any status the
caller put in the body. -/
theorem create_spec (inp : RawCreate) (t : Nat) (s : Store)
    (hvalid : validCreate inp = true) :
    ∃ td, create_todo inp t s =
        .ok (td, { todos := s.todos ++ [td], nextId := s.nextId + 1 }) ∧
      td.status = .pending ∧ td.created_at = t ∧ td.updated_at = t ∧
      td.id = s.nextId ∧
      ((∀ x ∈ s.todos, x.id < s.nextId) → ∀ x ∈ s.todos, x.id ≠ td.id) ∧
      ∀ st, create_todo { inp with statusAttempt := st } t s = create_todo inp t s := by
  refine ⟨{ id := s.nextId, title := inp.title, description := inp.description,
            priority := inp.priority.getD .medium, status := .pending,
            due_date := inp.due_date, created_at := t, updated_at := t },
          ?_, rfl, rfl, rfl, rfl, ?_, ?_⟩
  · simp [create_todo, hvalid]
  · intro hb x hx
    exact Nat.ne_of_lt (hb x hx)
  · intro st
    rfl

/-- C2 witness: a concrete valid body carrying a smuggled completed status,
created at instant 5 on the seeded store. -/
theorem create_spec_witness :
    validCreate sampleCreate = true ∧
    ∃ td, create_todo sampleCreate 5 seededStore =
        .ok (td, { todos := seededStore.todos ++ [td], nextId := seededStore.nextId + 1 }) ∧
      td.status = .pending ∧ td.created_at = 5 ∧ td.updated_at = 5 ∧
      td.id = seededStore.nextId ∧
      ((∀ x ∈ seededStore.todos, x.id < seededStore.nextId) →
        ∀ x ∈ seededStore.todos, x.id ≠ td.id) ∧
      ∀ st, create_todo { sampleCreate with statusAttempt := st } 5 seededStore =
        create_todo sampleCreate 5 seededStore :=
  ⟨by decide, create_spec sampleCreate 5 seededStore (by decide)⟩

/-- C5: on the four-record store with exactly one completed record (and one
high-priority record), the stats breakdowns leave every enum-value key at
its zero initialization and instead count under Python str() keys such as
TodoStatus.COMPLETED; consequently completed_count reads 0, completion_rate
is 0 rather than 25, and highest_priority_count is 0 despite a high-priority
record being present. -/
theorem stats_key_mismatch :
    dictGet (get_todo_stats fourStore).by_status TodoStatus.completed.value 0 = 0 ∧
    dictGet (get_todo_stats fourStore).by_status TodoStatus.completed.pyStr 0 = 1 ∧
    (get_todo_stats fourStore).highest_priority_count = some 0 ∧
    (get_todo_stats fourStore).completion_rate = 0 := by
  have hrate : (get_todo_stats fourStore).completion_rate =
      round2 (((0 : ℕ) : ℚ) / ((4 : ℕ) : ℚ) * 100) := rfl
  refine ⟨rfl, rfl, rfl, ?_⟩
  rw [hrate]
  norm_num [round2]

/-- C6: get_all_todos is exactly filtering by the optional status and
priority in insertion order, then dropping skip elements and taking up to
limit; on the seeded three-record store the default page returns the whole
collection in insertion order. -/
theorem list_spec (skip limit : Nat) (status_filter : Option TodoStatus)
    (priority : Option TodoPriority) (s : Store) :
    get_all_todos skip limit status_filter priority s =
      ((s.todos.filter (fun td =>
          (match status_filter with
           | none => true
           | some st => td.status == st) &&
          (match priority with
           | none => true
           | some p => td.priority == p))).drop skip).take limit ∧
    get_all_todos 0 10 none none seededStore = seededStore.todos := by
  constructor
  · cases status_filter <;> cases priority <;>
      simp [get_all_todos, pySlice_eq, List.filter_filter, Bool.and_comm]
  · rfl

/-- C8: from the seeded initial state, any chronologically timed trace of
requests leaves every record with created_at at most updated_at. -/
theorem timestamps_invariant (ops : List (Op × Nat)) (b : Nat)
    (hc : chron b ops = true) : checkInv (runOps ops seededStore) = true := by
  apply runOps_checkInv ops seededStore b hc
  intro td hm
  simp only [seededStore, List.mem_cons, List.not_mem_nil, or_false] at hm
  rcases hm with rfl | rfl | rfl <;> exact ⟨Nat.le_refl 0, Nat.zero_le b⟩

/-- C8 witness: a concrete monotone trace mixing a completion, a creation and
a patch. -/
theorem timestamps_invariant_witness :
    checkInv (runOps [(.completeOp 2, 5), (.createOp sampleCreate, 6),
                      (.patchOp 1 emptyUpdate, 7)] seededStore) = true :=
  timestamps_invariant
    [(.completeOp 2, 5), (.createOp sampleCreate, 6), (.patchOp 1 emptyUpdate, 7)]
    0 (by decide)

/-- C9: whenever a request fails, the store after the request is exactly the
store before it. -/
theorem op_atomic (op : Op) (t : Nat) (s : Store) (e : ApiError)
    (herr : (applyOp op t s).1 = .error e) : (applyOp op t s).2 = s := by
  cases op with
  | createOp inp =>
      by_cases hv : validCreate inp
      · simp [applyOp, create_todo, hv] at herr
      · simp [applyOp, create_todo, hv]
  | getOp todo_id =>
      rcases hg : get_todo_by_id todo_id s with e2 | td <;> simp [applyOp, hg]
  | listOp skip limit status_filter priority => rfl
  | updateOp todo_id u =>
      by_cases hv : validUpdate u
      · rcases hfind : find_todo_by_id todo_id s.todos with _ | td
        · simp [applyOp, hv, update_todo, hfind]
        · simp [applyOp, hv, update_todo, hfind] at herr
      · simp [applyOp, hv]
  | patchOp todo_id u =>
      by_cases hv : validUpdate u
      · rcases hfind : find_todo_by_id todo_id s.todos with _ | td
        · simp [applyOp, hv, partial_update_todo, hfind]
        · simp [applyOp, hv, partial_update_todo, hfind] at herr
      · simp [applyOp, hv]
  | deleteOp todo_id =>
      rcases hdel : deleteFromList todo_id s.todos with _ | ⟨d, rest⟩
      · simp [applyOp, delete_todo, hdel]
      · simp [applyOp, delete_todo, hdel] at herr
  | completeOp todo_id =>
      rcases hfind : find_todo_by_id todo_id s.todos with _ | td
      · simp [applyOp, mark_todo_complete, hfind]
      · simp [applyOp, mark_todo_complete, hfind] at herr
  | startOp todo_id =>
      rcases hfind : find_todo_by_id todo_id s.todos with _ | td
      · simp [applyOp, start_todo, hfind]
      · simp [applyOp, start_todo, hfind] at herr
  | searchOp q skip limit =>
      by_cases hq : (q.data.isEmpty || (pyStrip q.data).isEmpty) = true
      · simp [applyOp, search_todos, hq]
      · simp [applyOp, search_todos, hq] at herr
  | statsOp => simp [applyOp] at herr

/-- C9 witness: deleting an id absent from the seeded store fails and leaves
the store untouched. -/
theorem op_atomic_witness :
    (applyOp (.deleteOp 99) 5 seededStore).2 = seededStore :=
  op_atomic (.deleteOp 99) 5 seededStore .notFound rfl

/-- C3: PUT and PATCH are the same function on the store; when no record
carries the id both fail with NotFound; on an existing id both rewrite
exactly the supplied non-null fields of the first record carrying the id,
leave absent or explicitly null fields untouched, leave every other record
in place and in order, and always refresh updated_at, even when no field is
supplied. -/
theorem update_patch_spec (todo_id : Nat) (u : TodoUpdate) (t : Nat) (s : Store) :
    update_todo todo_id u t s = partial_update_todo todo_id u t s ∧
    ((∀ x ∈ s.todos, x.id ≠ todo_id) → update_todo todo_id u t s = .error .notFound) ∧
    ∀ td, find_todo_by_id todo_id s.todos = some td →
      ∃ td' l₁ l₂,
        s.todos = l₁ ++ td :: l₂ ∧ (∀ x ∈ l₁, x.id ≠ todo_id) ∧
        update_todo todo_id u t s = .ok (td', { s with todos := l₁ ++ td' :: l₂ }) ∧
        td'.id = td.id ∧ td'.created_at = td.created_at ∧ td'.updated_at = t ∧
        td'.title = (match u.title with
          | .val v => v
          | _ => td.title) ∧
        td'.description = (match u.description with
          | .val v => some v
          | _ => td.description) ∧
        td'.priority = (match u.priority with
          | .val v => v
          | _ => td.priority) ∧
        td'.status = (match u.status with
          | .val v => v
          | _ => td.status) ∧
        td'.due_date = (match u.due_date with
          | .val v => some v
          | _ => td.due_date) := by
  refine ⟨rfl, ?_, ?_⟩
  · intro hnone
    have hfn : find_todo_by_id todo_id s.todos = none := find_todo_by_id_eq_none.mpr hnone
    simp [update_todo, hfn]
  · intro td hfind
    obtain ⟨l₁, l₂, hl, hl₁, hid, hupd⟩ :=
      find_updateFirst_decomp todo_id (fun x => safe_todo_update x u t) hfind
    refine ⟨safe_todo_update td u t, l₁, l₂, hl, hl₁, ?_, rfl, rfl, rfl, ?_, ?_, ?_, ?_, ?_⟩
    · simp [update_todo, hfind, hupd]
    · rcases hv : u.title with _ | _ | v <;> simp [safe_todo_update, hv]
    · rcases hv : u.description with _ | _ | v <;> simp [safe_todo_update, hv]
    · rcases hv : u.priority with _ | _ | v <;> simp [safe_todo_update, hv]
    · rcases hv : u.status with _ | _ | v <;> simp [safe_todo_update, hv]
    · rcases hv : u.due_date with _ | _ | v <;> simp [safe_todo_update, hv]

/-- C3 witness: PUT and PATCH agree on a concrete request against the seeded
store, and both refuse a missing id with NotFound. -/
theorem update_patch_spec_witness :
    update_todo 0 emptyUpdate 9 seededStore = partial_update_todo 0 emptyUpdate 9 seededStore ∧
    update_todo 99 emptyUpdate 9 seededStore = .error .notFound :=
  ⟨(update_patch_spec 0 emptyUpdate 9 seededStore).1,
   (update_patch_spec 99 emptyUpdate 9 seededStore).2.1 (by decide)⟩

/-- C4: search_todos fails with InvalidArgument exactly when the query is
empty or all-whitespace after trimming; otherwise it succeeds with the
records matching the lowered, trimmed query collected in insertion order,
total_found counting every match before pagination, and the page being the
slice [skip, skip + limit) of the match list. -/
theorem search_spec (q : String) (skip limit : Nat) (s : Store) :
    ((∃ e, search_todos q skip limit s = .error e) ↔ pyStrip q.data = []) ∧
    (pyStrip q.data ≠ [] →
      search_todos q skip limit s =
        .ok (((s.todos.filter (todoMatches (pyStrip (pyLower q.data)))).drop skip).take limit,
             (s.todos.filter (todoMatches (pyStrip (pyLower q.data)))).length,
             String.mk (pyStrip (pyLower q.data)))) := by
  have hiff : (q.data.isEmpty || (pyStrip q.data).isEmpty) = true ↔ pyStrip q.data = [] := by
    simp only [Bool.or_eq_true, List.isEmpty_iff]
    constructor
    · rintro (h | h)
      · rw [h]
        rfl
      · exact h
    · exact fun h => Or.inr h
  by_cases hc : (q.data.isEmpty || (pyStrip q.data).isEmpty) = true
  · have herr : search_todos q skip limit s = .error .invalidArgument := by
      simp [search_todos, hc]
    refine ⟨⟨fun _ => hiff.mp hc, fun _ => ⟨.invalidArgument, herr⟩⟩, ?_⟩
    intro hne
    exact absurd (hiff.mp hc) hne
  · have hcb : (q.data.isEmpty || (pyStrip q.data).isEmpty) = false :=
      Bool.eq_false_iff.mpr hc
    have hok : search_todos q skip limit s =
        .ok (((s.todos.filter (todoMatches (pyStrip (pyLower q.data)))).drop skip).take limit,
             (s.todos.filter (todoMatches (pyStrip (pyLower q.data)))).length,
             String.mk (pyStrip (pyLower q.data))) := by
      simp [search_todos, hcb, foldl_append_eq_filter, pySlice_eq]
    refine ⟨⟨?_, fun h => absurd (hiff.mpr h) hc⟩, fun _ => hok⟩
    rintro ⟨e, he⟩
    rw [hok] at he
    exact absurd he (by simp)

/-- C4 witness: searching fastapi on the seeded store is accepted and
matches the record titled with FastAPI case-insensitively. -/
theorem search_spec_witness :
    pyStrip ("fastapi".data) ≠ [] ∧
    search_todos "fastapi" 0 10 seededStore =
      .ok (((seededStore.todos.filter (todoMatches (pyStrip (pyLower ("fastapi".data))))).drop 0).take 10,
           (seededStore.todos.filter (todoMatches (pyStrip (pyLower ("fastapi".data))))).length,
           String.mk (pyStrip (pyLower ("fastapi".data)))) :=
  ⟨by decide, (search_spec "fastapi" 0 10 seededStore).2 (by decide)⟩

/-- C7: delete_todo fails with NotFound exactly when no record carries the
id; a successful delete returns the removed record together with the size of
the remaining collection, and, with unique ids, a subsequent get_todo_by_id
on the same id fails with NotFound. -/
theorem delete_spec (todo_id : Nat) (s : Store) :
    ((∃ e, delete_todo todo_id s = .error e) ↔ ∀ x ∈ s.todos, x.id ≠ todo_id) ∧
    (s.todos.Pairwise (fun a b => a.id ≠ b.id) →
      ∀ d n s', delete_todo todo_id s = .ok (d, n, s') →
        d.id = todo_id ∧ n = s'.todos.length ∧
        get_todo_by_id todo_id s' = .error .notFound) := by
  rcases hdel : deleteFromList todo_id s.todos with _ | ⟨d, rest⟩
  · refine ⟨⟨fun _ => deleteFromList_eq_none.mp hdel,
            fun _ => ⟨.notFound, by simp [delete_todo, hdel]⟩⟩, ?_⟩
    intro _ d n s' hok
    simp [delete_todo, hdel] at hok
  · obtain ⟨l₁, l₂, hl, hl₁, hdid, hrest⟩ := deleteFromList_decomp hdel
    have hdmem : d ∈ s.todos := by
      rw [hl]
      exact List.mem_append.mpr (Or.inr (List.mem_cons_self d l₂))
    refine ⟨⟨?_, fun hall => absurd hdid (hall d hdmem)⟩, ?_⟩
    · rintro ⟨e, he⟩
      simp [delete_todo, hdel] at he
    · intro hpw d' n s' hok
      have hinj : d = d' ∧ rest.length = n ∧ ({ s with todos := rest } : Store) = s' := by
        simpa [delete_todo, hdel] using hok
      obtain ⟨rfl, rfl, rfl⟩ := hinj
      have hl₂ : ∀ x ∈ l₂, x.id ≠ todo_id := by
        rw [hl] at hpw
        obtain ⟨_, hpw2, _⟩ := List.pairwise_append.mp hpw
        obtain ⟨hd2, _⟩ := List.pairwise_cons.mp hpw2
        intro x hx hxeq
        exact hd2 x hx (by rw [hdid, hxeq])
      have hfn : find_todo_by_id todo_id rest = none := by
        apply find_todo_by_id_eq_none.mpr
        intro x hx
        rw [hrest] at hx
        rcases List.mem_append.mp hx with h1 | h2
        · exact hl₁ x h1
        · exact hl₂ x h2
      exact ⟨hdid, rfl, by simp [get_todo_by_id, hfn]⟩

/-- C7 witness: deleting the seeded id 1 pops exactly that record, reports
the remaining size, and a follow-up lookup of id 1 misses. -/
theorem delete_spec_witness :
    delete_todo 1 seededStore = .ok (seededTodo1, 2, seededAfterDelete1) ∧
    seededTodo1.id = 1 ∧ 2 = seededAfterDelete1.todos.length ∧
    get_todo_by_id 1 seededAfterDelete1 = .error .notFound :=
  ⟨rfl, (delete_spec 1 seededStore).2 (by decide) seededTodo1 2 seededAfterDelete1 rfl⟩

/-- C10: with unique ids, a successful delete removes exactly the record
carrying the id: the collection splits around it, the two sides survive
unchanged and in order, and the reported remaining count is the previous
size minus one. -/
theorem delete_frame (todo_id : Nat) (s : Store) (td : Todo)
    (hu : s.todos.Pairwise (fun a b => a.id ≠ b.id))
    (hmem : td ∈ s.todos) (hid : td.id = todo_id) :
    ∃ l₁ l₂, s.todos = l₁ ++ td :: l₂ ∧
      (∀ x ∈ l₁, x.id ≠ todo_id) ∧ (∀ x ∈ l₂, x.id ≠ todo_id) ∧
      delete_todo todo_id s = .ok (td, (l₁ ++ l₂).length, { s with todos := l₁ ++ l₂ }) ∧
      (l₁ ++ l₂).length + 1 = s.todos.length := by
  rcases hdel : deleteFromList todo_id s.todos with _ | ⟨d, rest⟩
  · exact absurd hid (deleteFromList_eq_none.mp hdel td hmem)
  · obtain ⟨l₁, l₂, hl, hl₁, hdid, hrest⟩ := deleteFromList_decomp hdel
    have hdmem : d ∈ s.todos := by
      rw [hl]
      exact List.mem_append.mpr (Or.inr (List.mem_cons_self d l₂))
    obtain rfl : td = d := uniq_same_id hu hmem hdmem (by rw [hid, hdid])
    have hl₂ : ∀ x ∈ l₂, x.id ≠ todo_id := by
      rw [hl] at hu
      obtain ⟨_, hpw2, _⟩ := List.pairwise_append.mp hu
      obtain ⟨hd2, _⟩ := List.pairwise_cons.mp hpw2
      intro x hx hxeq
      exact hd2 x hx (by rw [hdid, hxeq])
    refine ⟨l₁, l₂, hl, hl₁, hl₂, ?_, ?_⟩
    · simp [delete_todo, hdel, hrest]
    · rw [hl]
      simp [List.length_append]
      omega

/-- C10 witness: the frame condition at the seeded store for id 1. -/
theorem delete_frame_witness :
    ∃ l₁ l₂, seededStore.todos = l₁ ++ seededTodo1 :: l₂ ∧
      (∀ x ∈ l₁, x.id ≠ 1) ∧ (∀ x ∈ l₂, x.id ≠ 1) ∧
      delete_todo 1 seededStore =
        .ok (seededTodo1, (l₁ ++ l₂).length, { seededStore with todos := l₁ ++ l₂ }) ∧
      (l₁ ++ l₂).length + 1 = seededStore.todos.length :=
  delete_frame 1 seededStore seededTodo1 (by decide) (by decide) (by decide)

end TodoApp
